import Mathlib

/-
Verification development for the vehicle-service-shop backend
(Express + Mongoose routes in routes/api/auth.js, routes/api/vehicles.js,
routes/api/services.js, with schemas models/User.js, models/Vehicle.js,
models/Service.js).

The route handlers are shallowly embedded as pure Lean functions over
explicit list-shaped stores (one list per MongoDB collection).  Each
handler definition models the body of the corresponding Express handler
after the express-validator gate (which answers 400 with an `errors`
array on malformed bodies); wherever a claim depends on what that gate
guarantees, the guarantee appears as an explicit hypothesis or as an
explicit branch in the definition.  External collaborators (bcryptjs,
jsonwebtoken) are kept abstract as function parameters, with their
contracts as hypotheses.  MongoDB document ids are modelled as `Nat`
(every modelled id is a well-formed ObjectId); whitespace `trim`
setters are not modelled, i.e. string inputs are taken as already
trimmed.
-/

namespace VSShop

/-! ## ASCII case normalization

`Char.toLower` / `Char.toUpper` are the basic-latin case maps, matching
what JavaScript's `toLowerCase()` / `toUpperCase()` and the Mongoose
`lowercase:`/`uppercase:` setters do on the ASCII inputs this backend
handles (emails, license plates). -/

theorem charToNat_ofNat_valid (n : Nat) (h : n.isValidChar) : (Char.ofNat n).toNat = n := by
  simp [Char.ofNat, h, Char.ofNatAux, Char.toNat, UInt32.toNat]

theorem charToUpper_fix (c : Char) (h : ¬ (c.toNat ≥ 97 ∧ c.toNat ≤ 122)) : c.toUpper = c := by
  simp only [Char.toUpper]
  rw [if_neg h]

theorem charToUpper_idem (c : Char) : c.toUpper.toUpper = c.toUpper := by
  by_cases h : c.toNat ≥ 97 ∧ c.toNat ≤ 122
  · have h1 : c.toUpper = Char.ofNat (c.toNat - 32) := by
      simp [Char.toUpper, h]
    have hv : (c.toNat - 32).isValidChar := by
      constructor
      omega
    have h2 : c.toUpper.toNat = c.toNat - 32 := by
      rw [h1, charToNat_ofNat_valid _ hv]
    exact charToUpper_fix _ (by omega)
  · rw [charToUpper_fix c h, charToUpper_fix c h]

theorem charToLower_fix (c : Char) (h : ¬ (c.toNat ≥ 65 ∧ c.toNat ≤ 90)) : c.toLower = c := by
  simp only [Char.toLower]
  rw [if_neg h]

theorem charToLower_idem (c : Char) : c.toLower.toLower = c.toLower := by
  by_cases h : c.toNat ≥ 65 ∧ c.toNat ≤ 90
  · have h1 : c.toLower = Char.ofNat (c.toNat + 32) := by
      simp [Char.toLower, h]
    have hv : (c.toNat + 32).isValidChar := by
      constructor
      omega
    have h2 : c.toLower.toNat = c.toNat + 32 := by
      rw [h1, charToNat_ofNat_valid _ hv]
    exact charToLower_fix _ (by omega)
  · rw [charToLower_fix c h, charToLower_fix c h]

/-- Lowercase of a string, character-wise: models JavaScript `toLowerCase()`
and the Mongoose `lowercase: true` setter of `UserSchema.email`. -/
def lowerStr (s : String) : String := ⟨s.data.map Char.toLower⟩

/-- Uppercase of a string, character-wise: models JavaScript `toUpperCase()`
and the Mongoose `uppercase: true` setter of `VehicleSchema.licensePlate`. -/
def upperStr (s : String) : String := ⟨s.data.map Char.toUpper⟩

theorem lowerStr_idem (s : String) : lowerStr (lowerStr s) = lowerStr s := by
  simp only [lowerStr, List.map_map]
  congr 1
  exact List.map_congr_left (fun c _ => charToLower_idem c)

theorem upperStr_idem (s : String) : upperStr (upperStr s) = upperStr s := by
  simp only [upperStr, List.map_map]
  congr 1
  exact List.map_congr_left (fun c _ => charToUpper_idem c)

/-! ## Data model (models/User.js, models/Vehicle.js, models/Service.js) -/

/-- A document of the `users` collection (models/User.js).  The stored
`password` field holds the bcrypt hash produced by the pre-save hook;
the `date`/timestamp fields play no role in any claim and are omitted. -/
structure User where
  id : Nat
  name : String
  email : String
  password : String
  isAdmin : Bool
  deriving DecidableEq, Repr

/-- A document of the `vehicles` collection (models/Vehicle.js).
`dateAdded` is the creation timestamp (`default: Date.now`); the schema
has no field called `date`. -/
structure Vehicle where
  id : Nat
  userId : Nat
  make : String
  model : String
  year : Nat
  licensePlate : String
  dateAdded : Nat
  deriving DecidableEq, Repr

/-- An entry of `ServiceSchema.partsUsed` (models/Service.js). -/
structure UsedPart where
  partName : String
  quantity : Nat
  unitCost : Int
  deriving DecidableEq, Repr

/-- A document of the `services` collection (models/Service.js).  The
`type` field doubles as service category and workflow status. -/
structure Service where
  id : Nat
  userId : Nat
  vehicleId : Nat
  date : Nat
  type : String
  description : String
  cost : Int
  totalBill : Int
  partsUsed : List UsedPart
  customerName : String
  customerPhone : String
  deriving DecidableEq, Repr

/-- The `enum` list of `ServiceSchema.type` (models/Service.js). -/
def serviceTypeEnum : List String :=
  ["Oil Change", "Tire Rotation", "Brake Inspection", "Engine Diagnostic",
   "Fluid Check", "Other", "Pending", "In Progress", "Completed",
   "Ready for Pickup", "Picked Up", "Cancelled"]

/-- Save-time validation of one `partsUsed` entry: `partName` required
(non-empty string), `quantity` has `min: 1`, `unitCost` has `min: 0`. -/
def usedPartValid (p : UsedPart) : Bool :=
  p.partName != "" && decide (1 ≤ p.quantity) && decide (0 ≤ p.unitCost)

/-- Mongoose save-time validation of a Service document: `type` must lie
in the schema enum, `customerName` and `customerPhone` are required
strings (for Mongoose, an empty string fails `required: true`), `cost`
and `totalBill` have `min: 0`, and each `partsUsed` entry must be valid.
`Document.save()` rejects the write with a ValidationError when this is
false. -/
def serviceValid (s : Service) : Bool :=
  serviceTypeEnum.contains s.type &&
  s.customerName != "" &&
  s.customerPhone != "" &&
  decide (0 ≤ s.cost) &&
  decide (0 ≤ s.totalBill) &&
  s.partsUsed.all usedPartValid

/-! ## Auth routes (routes/api/auth.js) -/

/-- The JWT payload built by both the register and the login handler:
`{user: {id, name, isAdmin}}`. -/
structure TokenPayload where
  userId : Nat
  name : String
  isAdmin : Bool
  deriving DecidableEq, Repr

/-- An HTTP response of the auth routes: status, `msg` body field, and
the `token` field when one is issued. -/
structure AuthResp where
  status : Nat
  msg : String
  token : Option String
  deriving DecidableEq, Repr

/-- `User.findOne({email})`: Mongoose applies the `lowercase: true`
setter of the schema path to the query filter, so the lookup compares
the lowercased input against the stored (already lowercase) emails, and
returns the first match. -/
def findUserByEmail (store : List User) (email : String) : Option User :=
  store.find? (fun u => u.email == lowerStr email)

/-- The POST /api/auth/register handler (routes/api/auth.js), after the
express-validator gate: duplicate-email check via `User.findOne`, then
`new User(...)` + `save()`, which hashes the password with `bhash`
(bcrypt pre-save hook) and stores the email lowercased (schema setter);
a token signed by `sign` is returned.  `freshId` is the `_id` MongoDB
assigns to the new document. -/
def registerUser (bhash : String → String) (sign : TokenPayload → String) (freshId : Nat)
    (store : List User) (name email password : String) : AuthResp × List User :=
  match findUserByEmail store email with
  | some _ => (⟨400, "User already exists", none⟩, store)
  | none =>
    let u : User := ⟨freshId, name, lowerStr email, bhash password, false⟩
    (⟨200, "User registered successfully!", some (sign ⟨u.id, u.name, u.isAdmin⟩)⟩,
     store ++ [u])

/-- The POST /api/auth/login handler (routes/api/auth.js), after the
express-validator gate: `User.findOne({email})`, then
`user.matchPassword(password)` (bcrypt compare, abstracted as `verify`);
both the unknown-email case and the wrong-password case answer
400 `{msg: "Invalid Credentials"}`. -/
def loginUser (verify : String → String → Bool) (sign : TokenPayload → String)
    (store : List User) (email password : String) : AuthResp :=
  match findUserByEmail store email with
  | none => ⟨400, "Invalid Credentials", none⟩
  | some u =>
    if verify password u.password then
      ⟨200, "Logged in successfully!", some (sign ⟨u.id, u.name, u.isAdmin⟩)⟩
    else ⟨400, "Invalid Credentials", none⟩

/-- A register request body (post-validation) together with the `_id`
MongoDB will assign on insert. -/
structure RegisterReq where
  freshId : Nat
  name : String
  email : String
  password : String

/-- State transformer of one register request on the `users` collection. -/
def applyRegister (bhash : String → String) (sign : TokenPayload → String)
    (store : List User) (r : RegisterReq) : List User :=
  (registerUser bhash sign r.freshId store r.name r.email r.password).2

/-- The `users` collection reached from `store` by a sequence of register
requests. -/
def runRegistersFrom (bhash : String → String) (sign : TokenPayload → String)
    (store : List User) (reqs : List RegisterReq) : List User :=
  reqs.foldl (applyRegister bhash sign) store

/-- The `users` collection reached from the empty database by a sequence
of register requests (registration is the only operation in the
repository that writes the `users` collection). -/
def runRegisters (bhash : String → String) (sign : TokenPayload → String)
    (reqs : List RegisterReq) : List User :=
  runRegistersFrom bhash sign [] reqs

/-- Structural invariant of the `users` collection: stored emails are
lowercase-normal forms, and no email occurs twice. -/
def emailInv (store : List User) : Prop :=
  (∀ u ∈ store, lowerStr u.email = u.email) ∧ (store.map (·.email)).Nodup

/-! ## Vehicle routes (routes/api/vehicles.js) -/

/-- The POST /api/vehicles handler, after the express-validator gate:
per-user duplicate-plate check via
`Vehicle.findOne({userId, licensePlate: licensePlate.toUpperCase()})`,
then `new Vehicle(...)` + `save()` with the plate stored uppercased.
The collection-wide `unique: true` index on `licensePlate` makes the
save fail (duplicate-key error, caught as a 500 "Server Error") when any
other user already holds the same plate.  `freshId`/`dateNow` are the
`_id` and `Date.now` default MongoDB assigns on insert. -/
def postVehicle (store : List Vehicle) (callerId freshId dateNow : Nat)
    (make vmodel : String) (year : Nat) (licensePlate : String) :
    (Nat × String) × List Vehicle :=
  match store.find? (fun v => v.userId == callerId && v.licensePlate == upperStr licensePlate) with
  | some _ => ((400, "Vehicle with this license plate already added."), store)
  | none =>
    let nv : Vehicle := ⟨freshId, callerId, make, vmodel, year, upperStr licensePlate, dateNow⟩
    if store.any (fun v => v.licensePlate == nv.licensePlate) then
      ((500, "Server Error"), store)
    else ((200, "Vehicle added successfully!"), store ++ [nv])

/-- The sortable value of a Vehicle document at a given path.  The
Vehicle schema's creation timestamp lives at `dateAdded` (plus the
`timestamps` fields); there is no path called `date`, so a sort on
`date` finds no key on any document. -/
def vehicleSortKey (v : Vehicle) (field : String) : Option Nat :=
  if field = "dateAdded" then some v.dateAdded else none

/-- MongoDB descending-order comparison on optional sort keys: a
document missing the sort field sorts as null, below every number; two
documents both missing the field compare equal (so a stable sort keeps
their relative order). -/
def keyGeOpt : Option Nat → Option Nat → Bool
  | none, none => true
  | none, some _ => false
  | some _, none => true
  | some x, some y => decide (y ≤ x)

/-- The GET /api/vehicles handler:
`Vehicle.find({userId: req.user.id}).sort({date: -1})` — note the sort
path is `date`, which does not exist in the Vehicle schema. -/
def getVehicles (store : List Vehicle) (callerId : Nat) : List Vehicle :=
  (store.filter (fun v => v.userId == callerId)).insertionSort
    (fun a b => keyGeOpt (vehicleSortKey a "date") (vehicleSortKey b "date") = true)

/-- The DELETE /api/vehicles/:id handler:
`Vehicle.findOneAndDelete({_id: req.params.id, userId: req.user.id})`
removes the first (unique, by `_id`) document matching both conditions;
when nothing matches — id absent, or present with a different owner —
it answers the same 404 body. -/
def deleteVehicle (store : List Vehicle) (callerId vid : Nat) :
    (Nat × String) × List Vehicle :=
  match store.find? (fun v => v.id == vid && v.userId == callerId) with
  | none => ((404, "Vehicle not found or user not authorized"), store)
  | some _ =>
    ((200, "Vehicle removed successfully!"),
     store.eraseP (fun v => v.id == vid && v.userId == callerId))

/-! ## Service routes (routes/api/services.js) -/

/-- The `new Service({...})` constructor with the schema defaults of
models/Service.js applied: `type` defaults to "Pending" and
`description` to "" when the corresponding value is undefined. -/
def mkService (id userId vehicleId date : Nat) (ty : Option String)
    (description : Option String) (cost totalBill : Int)
    (partsUsed : List UsedPart) (customerName customerPhone : String) : Service :=
  ⟨id, userId, vehicleId, date, ty.getD "Pending", description.getD "",
   cost, totalBill, partsUsed, customerName, customerPhone⟩

/-- The document the POST /api/services handler passes to `save()`: the
body's destructuring defaults (`cost = 0`, `totalBill = 0`,
`partsUsed = []`) are applied, `customerName` is copied from the
caller's user profile, and `customerPhone` is the literal `''`. -/
def bookConstruct (freshId callerId vehicleId date : Nat) (ty : String)
    (description : Option String) (cost totalBill : Option Int)
    (partsUsed : Option (List UsedPart)) (customerName : String) : Service :=
  mkService freshId callerId vehicleId date (some ty) description
    (cost.getD 0) (totalBill.getD 0) (partsUsed.getD []) customerName ""

/-- The POST /api/services handler (book a service), after the
express-validator gate: checks `Vehicle.findOne({_id: vehicleId,
userId: req.user.id})`, loads the caller's user document, constructs
the new Service and saves it; the save goes through the schema
validation `serviceValid`. -/
def bookService (users : List User) (vehicles : List Vehicle) (store : List Service)
    (callerId freshId : Nat) (vehicleId date : Nat) (ty : String)
    (description : Option String) (cost totalBill : Option Int)
    (partsUsed : Option (List UsedPart)) : (Nat × String) × List Service :=
  match vehicles.find? (fun v => v.id == vehicleId && v.userId == callerId) with
  | none => ((404, "Vehicle not found or does not belong to user"), store)
  | some _ =>
    match users.find? (fun u => u.id == callerId) with
    | none => ((404, "User not found"), store)
    | some user =>
      let s := bookConstruct freshId callerId vehicleId date ty description
        cost totalBill partsUsed user.name
      if serviceValid s then ((200, "Service booked successfully!"), store ++ [s])
      else ((500, "Server Error"), store)

/-- The customer-field fallback loop of the GET /api/services handler:
when `customerName` or `customerPhone` is falsy, the owning user is
looked up and `customerName = user.name || customerName` is applied;
the User schema has no `phone` path, so
`customerPhone = user.phone || customerPhone` always keeps the stored
phone. -/
def enrichService (users : List User) (s : Service) : Service :=
  if s.customerName == "" || s.customerPhone == "" then
    match users.find? (fun u => u.id == s.userId) with
    | some u =>
      { s with customerName := if u.name != "" then u.name else s.customerName }
    | none => s
  else s

/-- Descending order on the `date` field of Service documents (the
Service schema, unlike Vehicle, does have a `date` path). -/
def serviceDateGe (a b : Service) : Prop := b.date ≤ a.date

instance : DecidableRel serviceDateGe :=
  fun a b => inferInstanceAs (Decidable (b.date ≤ a.date))

/-- The GET /api/services handler: an admin queries all services —
minus those with `type` equal to "Picked Up" unless
`includePickedUp=true` — while a regular user queries only their own
services with no status filtering; the result is sorted by `date`
descending and mapped through the customer-field fallback.  (The
`populate('vehicleId', ...)` enrichment adds vehicle display fields and
is not modelled; it touches no field any claim mentions.) -/
def listServices (users : List User) (store : List Service) (callerId : Nat)
    (isAdminCaller : Bool) (includePickedUp : Bool) : List Service :=
  let matched :=
    if isAdminCaller then
      if includePickedUp then store else store.filter (fun s => s.type != "Picked Up")
    else store.filter (fun s => s.userId == callerId)
  (matched.insertionSort serviceDateGe).map (enrichService users)

/-- The PATCH /api/services/:id/status handler (admin-only): the
express-validator gate rejects an empty `status`; otherwise
`Service.findById`, `service.type = status`, `service.save()` — the
save re-runs the schema validation on the whole document and fails with
a ValidationError (surfaced as 500 "Server Error") when the new `type`
is outside the enum or the document is otherwise invalid. -/
def updateStatus (store : List Service) (sid : Nat) (status : String) :
    (Nat × String) × List Service :=
  if status == "" then ((400, "Status is required"), store)
  else
    match store.find? (fun s => s.id == sid) with
    | none => ((404, "Service not found"), store)
    | some s =>
      let s' := { s with type := status }
      if serviceValid s' then
        ((200, "Service status updated successfully!"),
         store.map (fun t => if t.id == sid then s' else t))
      else ((500, "Server Error"), store)

/-- The PUT /api/services/:id request body: each field is `none` when
the key is absent from the JSON body. -/
structure UpdateBody where
  date : Option Nat
  type : Option String
  description : Option String
  cost : Option Int
  totalBill : Option Int
  partsUsed : Option (List UsedPart)
  customerName : Option String
  customerPhone : Option String
  deriving DecidableEq, Repr

/-- JavaScript truthiness of a possibly-absent string value: `undefined`
and `''` are falsy, every other string truthy. -/
def strTruthy : Option String → Bool
  | some s => s != ""
  | none => false

/-- The `serviceFields` object built by the PUT /api/services/:id
handler, applied as a `$set`: `date` (a Date object after
`.toDate()`, always truthy when present), `type`, `customerName` and
`customerPhone` are guarded by JS truthiness (`if (x)`), while
`description`, `cost`, `totalBill` and `partsUsed` are guarded by a
presence check (`x !== undefined`) — so an explicitly empty description
is applied. -/
def applyServiceFields (b : UpdateBody) (s : Service) : Service :=
  { s with
    date := match b.date with | some d => d | none => s.date
    type := if strTruthy b.type then b.type.getD s.type else s.type
    description := match b.description with | some d => d | none => s.description
    cost := match b.cost with | some c => c | none => s.cost
    totalBill := match b.totalBill with | some t => t | none => s.totalBill
    partsUsed := match b.partsUsed with | some p => p | none => s.partsUsed
    customerName :=
      if strTruthy b.customerName then b.customerName.getD s.customerName else s.customerName
    customerPhone :=
      if strTruthy b.customerPhone then b.customerPhone.getD s.customerPhone else s.customerPhone }

/-- express-validator check for an optional non-negative number. -/
def optNonneg : Option Int → Bool
  | some c => decide (0 ≤ c)
  | none => true

/-- The express-validator gate of PUT /api/services/:id: `date`
required (ISO-8601), `type`, `customerName`, `customerPhone` required
non-empty, `cost`/`totalBill` optional non-negative. -/
def updateBodyValid (b : UpdateBody) : Bool :=
  b.date.isSome && strTruthy b.type && strTruthy b.customerName &&
  strTruthy b.customerPhone && optNonneg b.cost && optNonneg b.totalBill

/-- The PUT /api/services/:id handler (admin-only): validation gate,
`Service.findById` (404 when absent), then
`Service.findByIdAndUpdate(id, {$set: serviceFields})` — which updates
exactly the fields put into `serviceFields` and, by Mongoose default,
runs no validators. -/
def updateDetails (store : List Service) (sid : Nat) (b : UpdateBody) :
    (Nat × String) × List Service :=
  if updateBodyValid b then
    match store.find? (fun s => s.id == sid) with
    | none => ((404, "Service not found"), store)
    | some s =>
      ((200, "Service details updated successfully!"),
       store.map (fun t => if t.id == sid then applyServiceFields b s else t))
  else ((400, "Validation failed"), store)

/-! ## General helper lemmas -/

theorem find?_eq_of_mem_of_nodup_keys {α β : Type} [BEq β] [LawfulBEq β] (key : α → β) :
    ∀ (l : List α) (u : α), u ∈ l → (l.map key).Nodup →
      l.find? (fun x => key x == key u) = some u := by
  intro l
  induction l with
  | nil => intro u hu; cases hu
  | cons a t ih =>
    intro u hu hnd
    rw [List.map_cons, List.nodup_cons] at hnd
    by_cases hk : key a = key u
    · have hau : a = u := by
        rcases List.mem_cons.mp hu with h | h
        · exact h.symm
        · exact absurd (hk ▸ List.mem_map_of_mem key h) hnd.1
      subst hau
      simp [List.find?_cons_of_pos]
    · have hut : u ∈ t := by
        rcases List.mem_cons.mp hu with h | h
        · exact absurd (h ▸ rfl) hk
        · exact h
      rw [List.find?_cons_of_neg _ (by simpa using hk), ih u hut hnd.2]

theorem pred_of_mem_not_mem_eraseP {α : Type} (p : α → Bool) :
    ∀ (l : List α) (w : α), w ∈ l → w ∉ l.eraseP p → p w = true := by
  intro l
  induction l with
  | nil => intro w hw; cases hw
  | cons a t ih =>
    intro w hw hnot
    by_cases hpa : p a = true
    · rw [List.eraseP_cons_of_pos hpa] at hnot
      rcases List.mem_cons.mp hw with h | h
      · exact h ▸ hpa
      · exact absurd h hnot
    · rw [List.eraseP_cons_of_neg hpa] at hnot
      rcases List.mem_cons.mp hw with h | h
      · exact absurd (List.mem_cons_self a _) (h ▸ hnot)
      · exact ih w h (fun hmem => hnot (List.mem_cons_of_mem a hmem))

theorem insertionSort_of_total_rel {α : Type} (r : α → α → Prop) [DecidableRel r]
    (hr : ∀ a b, r a b) : ∀ l : List α, l.insertionSort r = l := by
  intro l
  induction l with
  | nil => rfl
  | cons a t ih => rw [List.insertionSort_cons r (fun b _ => hr a b), ih]

/-! ## Concrete fixtures used by the witnesses -/

/-- A concrete stand-in for the bcrypt hash (collaborator). -/
def bhashT (p : String) : String := "h:" ++ p

/-- A concrete stand-in for bcrypt.compare (collaborator): accepts
exactly the password whose `bhashT` image is the stored hash. -/
def verifyT (p h : String) : Bool := h == "h:" ++ p

/-- A concrete stand-in for jwt.sign (collaborator): some fixed
non-empty token string. -/
def signT (_ : TokenPayload) : String := "tok"

def uAlice : User := ⟨1, "Alice", "a@x.com", "h:secret1", false⟩

/-! ## C1: login -/

/-- C1: for every login request whose body passes validation: when no
user matches the email, or a user matches but the supplied password
does not verify against the stored hash, the handler answers the
literal response `400 {msg: "Invalid Credentials"}` in both cases
(hence the two failures are indistinguishable); when the email belongs
to a registered user (who holds the bcrypt hash of the original
plaintext) and the supplied password is that original plaintext, the
handler answers 200 with a non-empty token. -/
theorem login_contract (verify : String → String → Bool) (sign : TokenPayload → String)
    (bhash : String → String) (store : List User) (email password : String) :
    (findUserByEmail store email = none →
      loginUser verify sign store email password = ⟨400, "Invalid Credentials", none⟩)
    ∧ (∀ u, findUserByEmail store email = some u → verify password u.password = false →
      loginUser verify sign store email password = ⟨400, "Invalid Credentials", none⟩)
    ∧ (∀ u, u ∈ store → u.email = lowerStr email → u.password = bhash password →
      (store.map (·.email)).Nodup →
      (∀ p, verify p (bhash p) = true) →
      (∀ pl, sign pl ≠ "") →
      ∃ t, t ≠ "" ∧ loginUser verify sign store email password =
        ⟨200, "Logged in successfully!", some t⟩) := by
  refine ⟨?_, ?_, ?_⟩
  · intro h
    simp [loginUser, h]
  · intro u hu hv
    simp [loginUser, hu, hv]
  · intro u hu he hp hnd hverify hsign
    have hfind : findUserByEmail store email = some u := by
      have h := find?_eq_of_mem_of_nodup_keys User.email store u hu hnd
      rw [he] at h
      exact h
    refine ⟨sign ⟨u.id, u.name, u.isAdmin⟩, hsign _, ?_⟩
    have hm : verify password u.password = true := by rw [hp]; exact hverify password
    simp [loginUser, hfind, hm]

/-- Witness for C1 at a one-user store: a wrong password yields the
400 Invalid-Credentials body, the original password yields 200 with a
non-empty token. -/
theorem login_contract_witness :
    loginUser verifyT signT [uAlice] "a@x.com" "wrong" = ⟨400, "Invalid Credentials", none⟩
    ∧ ∃ t, t ≠ "" ∧ loginUser verifyT signT [uAlice] "a@x.com" "secret1" =
        ⟨200, "Logged in successfully!", some t⟩ := by
  constructor
  · exact (login_contract verifyT signT bhashT [uAlice] "a@x.com" "wrong").2.1 uAlice
      (by decide) (by decide)
  · exact (login_contract verifyT signT bhashT [uAlice] "a@x.com" "secret1").2.2 uAlice
      (by decide) (by decide) (by decide) (by decide)
      (fun p => by simp [verifyT, bhashT]) (fun pl => by simp [signT])

/-! ## C2: registration and email uniqueness -/

theorem applyRegister_mono (bhash : String → String) (sign : TokenPayload → String)
    (st : List User) (r : RegisterReq) (u : User) (hu : u ∈ st) :
    u ∈ applyRegister bhash sign st r := by
  unfold applyRegister registerUser
  cases hfind : findUserByEmail st r.email <;> simp [hfind, hu]

theorem runRegistersFrom_mono (bhash : String → String) (sign : TokenPayload → String)
    (reqs : List RegisterReq) :
    ∀ (st : List User) (u : User), u ∈ st → u ∈ runRegistersFrom bhash sign st reqs := by
  induction reqs with
  | nil => intro st u hu; simpa [runRegistersFrom] using hu
  | cons r rs ih =>
    intro st u hu
    have h1 : runRegistersFrom bhash sign st (r :: rs) =
        runRegistersFrom bhash sign (applyRegister bhash sign st r) rs := by
      simp [runRegistersFrom]
    rw [h1]
    exact ih _ u (applyRegister_mono bhash sign st r u hu)

theorem applyRegister_emailInv (bhash : String → String) (sign : TokenPayload → String)
    (st : List User) (r : RegisterReq) (h : emailInv st) :
    emailInv (applyRegister bhash sign st r) := by
  obtain ⟨hlow, hnd⟩ := h
  unfold applyRegister registerUser
  cases hfind : findUserByEmail st r.email with
  | some v => simpa [hfind] using ⟨hlow, hnd⟩
  | none =>
    simp only [hfind]
    constructor
    · intro u hu
      rcases List.mem_append.mp hu with hl | hr
      · exact hlow u hl
      · have hu2 : u = ⟨r.freshId, r.name, lowerStr r.email, bhash r.password, false⟩ := by
          simpa using hr
        rw [hu2]
        exact lowerStr_idem r.email
    · rw [List.map_append]
      refine List.Nodup.append hnd (by simp) ?_
      intro x hx hx2
      have hxe : x = lowerStr r.email := by simpa using hx2
      obtain ⟨u, hu, hue⟩ := List.mem_map.mp hx
      have hne := List.find?_eq_none.mp hfind u hu
      apply hne
      rw [hue, hxe]
      simp

theorem runRegistersFrom_emailInv (bhash : String → String) (sign : TokenPayload → String)
    (reqs : List RegisterReq) :
    ∀ st : List User, emailInv st → emailInv (runRegistersFrom bhash sign st reqs) := by
  induction reqs with
  | nil => intro st h; simpa [runRegistersFrom] using h
  | cons r rs ih =>
    intro st h
    have h1 : runRegistersFrom bhash sign st (r :: rs) =
        runRegistersFrom bhash sign (applyRegister bhash sign st r) rs := by
      simp [runRegistersFrom]
    rw [h1]
    exact ih _ (applyRegister_emailInv bhash sign st r h)

theorem registerUser_status200 (bhash : String → String) (sign : TokenPayload → String)
    (fid : Nat) (st : List User) (n e p : String)
    (h : (registerUser bhash sign fid st n e p).1.status = 200) :
    ∃ u ∈ (registerUser bhash sign fid st n e p).2, u.email = lowerStr e := by
  unfold registerUser at h ⊢
  cases hfind : findUserByEmail st e with
  | some v => rw [hfind] at h; simp at h
  | none =>
    exact ⟨⟨fid, n, lowerStr e, bhash p, false⟩, by simp, rfl⟩

theorem register_conflict_of_present (bhash : String → String) (sign : TokenPayload → String)
    (fid : Nat) (st : List User) (n e p : String) (h : ∃ u ∈ st, u.email = lowerStr e) :
    registerUser bhash sign fid st n e p = (⟨400, "User already exists", none⟩, st) := by
  obtain ⟨u, hu, hue⟩ := h
  have hsome : (findUserByEmail st e).isSome := by
    unfold findUserByEmail
    exact List.find?_isSome.mpr ⟨u, hu, by rw [hue]; simp⟩
  unfold registerUser
  cases hfind : findUserByEmail st e with
  | none => rw [hfind] at hsome; simp at hsome
  | some v => rfl

/-- C2: registration never lets two user rows share the same
lowercase-normalized email — stated (1) as an invariant of every store
reachable from the empty `users` collection by register requests, and
(2) as: after a successful registration with email `e`, any later
registration (with arbitrary registrations in between) whose email
equals `e` up to letter case answers the literal Conflict response
`400 {msg: "User already exists"}` and leaves the store unchanged. -/
theorem register_email_unique (bhash : String → String) (sign : TokenPayload → String) :
    (∀ reqs : List RegisterReq,
      ((runRegisters bhash sign reqs).map (fun u => lowerStr u.email)).Nodup)
    ∧ (∀ (st : List User) (r₁ r₂ : RegisterReq) (mid : List RegisterReq),
      (registerUser bhash sign r₁.freshId st r₁.name r₁.email r₁.password).1.status = 200 →
      lowerStr r₂.email = lowerStr r₁.email →
      registerUser bhash sign r₂.freshId
          (runRegistersFrom bhash sign
            (registerUser bhash sign r₁.freshId st r₁.name r₁.email r₁.password).2 mid)
          r₂.name r₂.email r₂.password =
        (⟨400, "User already exists", none⟩,
         runRegistersFrom bhash sign
           (registerUser bhash sign r₁.freshId st r₁.name r₁.email r₁.password).2 mid)) := by
  constructor
  · intro reqs
    have hinv : emailInv (runRegisters bhash sign reqs) :=
      runRegistersFrom_emailInv bhash sign reqs [] ⟨by simp, by simp⟩
    have hmap : (runRegisters bhash sign reqs).map (fun u => lowerStr u.email) =
        (runRegisters bhash sign reqs).map (·.email) :=
      List.map_congr_left (fun u hu => hinv.1 u hu)
    rw [hmap]
    exact hinv.2
  · intro st r₁ r₂ mid h200 hcase
    obtain ⟨u, hu, hue⟩ := registerUser_status200 bhash sign r₁.freshId st
      r₁.name r₁.email r₁.password h200
    have hu2 : u ∈ runRegistersFrom bhash sign
        (registerUser bhash sign r₁.freshId st r₁.name r₁.email r₁.password).2 mid :=
      runRegistersFrom_mono bhash sign mid _ u hu
    exact register_conflict_of_present bhash sign r₂.freshId _ r₂.name r₂.email r₂.password
      ⟨u, hu2, by rw [hue, hcase]⟩

def regR1 : RegisterReq := ⟨1, "Alice", "A@X.com", "secret1"⟩

def regR2 : RegisterReq := ⟨2, "Alice2", "a@x.COM", "secret2"⟩

/-- Witness for C2: registering `A@X.com` and then `a@x.COM` on the
empty store makes the second attempt answer the Conflict response and
leave the store as it was. -/
theorem register_email_unique_witness :
    registerUser bhashT signT regR2.freshId
        (runRegistersFrom bhashT signT
          (registerUser bhashT signT regR1.freshId [] regR1.name regR1.email regR1.password).2 [])
        regR2.name regR2.email regR2.password =
      (⟨400, "User already exists", none⟩,
       runRegistersFrom bhashT signT
         (registerUser bhashT signT regR1.freshId [] regR1.name regR1.email regR1.password).2 []) :=
  (register_email_unique bhashT signT).2 [] regR1 regR2 [] (by decide) (by decide)

/-! ## C3: service listing scope -/

theorem enrichService_fields (users : List User) (s : Service) :
    (enrichService users s).id = s.id ∧ (enrichService users s).userId = s.userId ∧
    (enrichService users s).type = s.type := by
  unfold enrichService
  split
  · split <;> exact ⟨rfl, rfl, rfl⟩
  · exact ⟨rfl, rfl, rfl⟩

theorem listServices_core_ids (users : List User) (l : List Service) :
    (((l.insertionSort serviceDateGe).map (enrichService users)).map (·.id)).Perm
      (l.map (·.id)) := by
  rw [List.map_map]
  have hfe : ((fun s : Service => s.id) ∘ enrichService users) = fun s : Service => s.id :=
    funext (fun s => (enrichService_fields users s).1)
  rw [hfe]
  exact (List.perm_insertionSort serviceDateGe l).map (fun s : Service => s.id)

theorem mem_listServices_core (users : List User) (l : List Service) (r : Service)
    (hr : r ∈ (l.insertionSort serviceDateGe).map (enrichService users)) :
    ∃ s ∈ l, enrichService users s = r := by
  obtain ⟨s, hs, hse⟩ := List.mem_map.mp hr
  exact ⟨s, (List.perm_insertionSort serviceDateGe l).subset hs, hse⟩

/-- C3: for every service-list request, a non-admin caller receives
exactly the records whose `userId` is the caller's id, whatever the
`includePickedUp` flag (no status filtering): every returned record is
caller-owned and the returned record ids are a permutation of the
caller-owned record ids.  An admin receives all records when the flag
is set; with the flag unset, no returned record has status
"Picked Up" and the returned ids are exactly those of the records whose
status differs from "Picked Up". -/
theorem listServices_scope (users : List User) (store : List Service) (callerId : Nat) :
    (∀ flag : Bool, ∀ r ∈ listServices users store callerId false flag, r.userId = callerId)
    ∧ (∀ flag : Bool,
      ((listServices users store callerId false flag).map (·.id)).Perm
        ((store.filter (fun s => s.userId == callerId)).map (·.id)))
    ∧ (((listServices users store callerId true true).map (·.id)).Perm (store.map (·.id)))
    ∧ (∀ r ∈ listServices users store callerId true false, r.type ≠ "Picked Up")
    ∧ (((listServices users store callerId true false).map (·.id)).Perm
      ((store.filter (fun s => s.type != "Picked Up")).map (·.id))) := by
  refine ⟨?_, ?_, ?_, ?_, ?_⟩
  · intro flag r hr
    have hr2 : r ∈ ((store.filter (fun s => s.userId == callerId)).insertionSort
        serviceDateGe).map (enrichService users) := by
      simpa [listServices] using hr
    obtain ⟨s, hs, hse⟩ := mem_listServices_core users _ r hr2
    have hsu : s.userId = callerId := by simpa using (List.mem_filter.mp hs).2
    rw [← hse, (enrichService_fields users s).2.1, hsu]
  · intro flag
    simpa [listServices] using
      listServices_core_ids users (store.filter (fun s => s.userId == callerId))
  · simpa [listServices] using listServices_core_ids users store
  · intro r hr
    have hr2 : r ∈ ((store.filter (fun s => s.type != "Picked Up")).insertionSort
        serviceDateGe).map (enrichService users) := by
      simpa [listServices] using hr
    obtain ⟨s, hs, hse⟩ := mem_listServices_core users _ r hr2
    have hst : s.type ≠ "Picked Up" := by simpa using (List.mem_filter.mp hs).2
    rw [← hse, (enrichService_fields users s).2.2]
    exact hst
  · simpa [listServices] using
      listServices_core_ids users (store.filter (fun s => s.type != "Picked Up"))

def svcMine : Service := ⟨1, 7, 1, 50, "Pending", "", 0, 0, [], "Alice", "123"⟩

def svcOther : Service := ⟨2, 8, 2, 60, "Picked Up", "", 5, 5, [], "Bob", "456"⟩

/-- Witness for C3 on a two-record store: a record returned to
non-admin caller 7 is owned by 7; the admin's no-pickup listing is
id-for-id the non-picked-up records, and a record it returns is not
"Picked Up". -/
theorem listServices_scope_witness :
    svcMine.userId = 7
    ∧ ((listServices [] [svcMine, svcOther] 7 true false).map (·.id)).Perm
        (([svcMine, svcOther].filter (fun s => s.type != "Picked Up")).map (·.id))
    ∧ svcMine.type ≠ "Picked Up" := by
  refine ⟨?_, ?_, ?_⟩
  · exact (listServices_scope [] [svcMine, svcOther] 7).1 true svcMine (by decide)
  · exact (listServices_scope [] [svcMine, svcOther] 7).2.2.2.2
  · exact (listServices_scope [] [svcMine, svcOther] 7).2.2.2.1 svcMine (by decide)

/-! ## C4: vehicle deletion -/

/-- C4: for every vehicle-delete request, when no stored vehicle has
the requested id, and equally when the vehicle exists but belongs to a
different user, the handler answers the same literal
`404 {msg: "Vehicle not found or user not authorized"}` response (the
two cases are indistinguishable, and neither is a 403) and leaves the
store unchanged; and any vehicle that disappears from the store was the
requested one and belonged to the caller. -/
theorem deleteVehicle_contract (store : List Vehicle) (callerId vid : Nat) :
    ((∀ v ∈ store, v.id ≠ vid) →
      deleteVehicle store callerId vid =
        ((404, "Vehicle not found or user not authorized"), store))
    ∧ ((∀ v ∈ store, v.id = vid → v.userId ≠ callerId) →
      deleteVehicle store callerId vid =
        ((404, "Vehicle not found or user not authorized"), store))
    ∧ (∀ w ∈ store, w ∉ (deleteVehicle store callerId vid).2 →
      w.id = vid ∧ w.userId = callerId) := by
  refine ⟨?_, ?_, ?_⟩
  · intro h
    have hfind : store.find? (fun v => v.id == vid && v.userId == callerId) = none := by
      rw [List.find?_eq_none]
      intro v hv
      simp [h v hv]
    simp [deleteVehicle, hfind]
  · intro h
    have hfind : store.find? (fun v => v.id == vid && v.userId == callerId) = none := by
      rw [List.find?_eq_none]
      intro v hv
      by_cases hid : v.id = vid
      · simp [h v hv hid]
      · simp [hid]
    simp [deleteVehicle, hfind]
  · intro w hw hnot
    unfold deleteVehicle at hnot
    cases hfind : store.find? (fun v => v.id == vid && v.userId == callerId) with
    | none => rw [hfind] at hnot; exact absurd hw hnot
    | some v =>
      rw [hfind] at hnot
      have hp := pred_of_mem_not_mem_eraseP
        (fun v => v.id == vid && v.userId == callerId) store w hw hnot
      simpa using hp

def vHonda : Vehicle := ⟨1, 7, "Honda", "Activa", 2020, "MH12AB", 100⟩

/-- Witness for C4: deleting vehicle 1 (owned by user 7) as user 8
answers the 404 body and keeps the store; deleting a nonexistent id as
its owner answers the same body; and the vehicle that disappears when
the owner deletes it is the requested, owner-owned one. -/
theorem deleteVehicle_contract_witness :
    deleteVehicle [vHonda] 8 1 = ((404, "Vehicle not found or user not authorized"), [vHonda])
    ∧ deleteVehicle [vHonda] 7 99 =
        ((404, "Vehicle not found or user not authorized"), [vHonda])
    ∧ (vHonda.id = 1 ∧ vHonda.userId = 7) := by
  refine ⟨?_, ?_, ?_⟩
  · exact (deleteVehicle_contract [vHonda] 8 1).2.1 (by decide)
  · exact (deleteVehicle_contract [vHonda] 7 99).1 (by decide)
  · exact (deleteVehicle_contract [vHonda] 7 1).2.2 vHonda (by decide) (by decide)

/-! ## C5: admin status update -/

theorem serviceValid_type_mem (s : Service) (h : serviceValid s = true) :
    s.type ∈ serviceTypeEnum := by
  unfold serviceValid at h
  simp only [Bool.and_eq_true] at h
  simpa using h.1.1.1.1.1

theorem mem_serviceTypeEnum_ne_empty (t : String) (h : t ∈ serviceTypeEnum) : t ≠ "" := by
  intro he
  subst he
  revert h
  decide

/-- Counterexample to C5 as stated: the store holds the single service
record id 1 with type "Pending"; the admin requests status "Bogus"
(which passes the route's only validation, non-emptiness); the handler
answers 500 and the store still holds type "Pending", not the requested
status — so "after the operation its status/type field equals the
requested status" fails at this input. -/
theorem updateStatus_claim_cex :
    updateStatus [svcMine] 1 "Bogus" = ((500, "Server Error"), [svcMine])
    ∧ svcMine.id = 1
    ∧ ¬ ((updateStatus [svcMine] 1 "Bogus").2.map (·.type) = ["Bogus"]) := by
  decide

/-- C5 amended: for every admin updateStatus request with a non-empty
status, when no record has the requested id the response is the literal
`404 {msg: "Service not found"}` and the store is unchanged; when the
record exists and the updated document passes the Service schema's
save-time validation (in particular the requested status is one of the
schema enum values), the stored record's `type` becomes exactly the
requested status while all its other fields and all other records are
untouched; when the updated document fails that validation (a status
outside the enum), the save is rejected, the response is 500 and the
store is unchanged. -/
theorem updateStatus_contract (store : List Service) (sid : Nat) (status : String) :
    (status ≠ "" → (∀ s ∈ store, s.id ≠ sid) →
      updateStatus store sid status = ((404, "Service not found"), store))
    ∧ (∀ s, store.find? (fun t => t.id == sid) = some s →
      serviceValid { s with type := status } = true →
      updateStatus store sid status =
        ((200, "Service status updated successfully!"),
         store.map (fun t => if t.id == sid then { s with type := status } else t)))
    ∧ (∀ s, store.find? (fun t => t.id == sid) = some s →
      serviceValid { s with type := status } = false → status ≠ "" →
      updateStatus store sid status = ((500, "Server Error"), store)) := by
  refine ⟨?_, ?_, ?_⟩
  · intro hstat h
    have hfind : store.find? (fun t => t.id == sid) = none := by
      rw [List.find?_eq_none]
      intro t ht
      simp [h t ht]
    simp [updateStatus, hfind, hstat]
  · intro s hfind hvalid
    have hstat : status ≠ "" :=
      mem_serviceTypeEnum_ne_empty status
        (by simpa using serviceValid_type_mem _ hvalid)
    simp [updateStatus, hfind, hvalid, hstat]
  · intro s hfind hvalid hstat
    simp [updateStatus, hfind, hvalid, hstat]

/-- Witness for C5: updating record 1 to the enum status "In Progress"
replaces exactly the `type` field; a nonexistent id answers 404 with the
store unchanged; the non-enum status "Rejected" answers 500 with the
store unchanged. -/
theorem updateStatus_contract_witness :
    updateStatus [svcMine] 1 "In Progress" =
      ((200, "Service status updated successfully!"),
       [svcMine].map (fun t => if t.id == 1 then { svcMine with type := "In Progress" } else t))
    ∧ updateStatus [svcMine] 99 "In Progress" = ((404, "Service not found"), [svcMine])
    ∧ updateStatus [svcMine] 1 "Rejected" = ((500, "Server Error"), [svcMine]) := by
  refine ⟨?_, ?_, ?_⟩
  · exact (updateStatus_contract [svcMine] 1 "In Progress").2.1 svcMine (by decide) (by decide)
  · exact (updateStatus_contract [svcMine] 99 "In Progress").1 (by decide) (by decide)
  · exact (updateStatus_contract [svcMine] 1 "Rejected").2.2 svcMine (by decide) (by decide)
      (by decide)

/-! ## C6 and C7: booking a service -/

/-- C6: for every book request, when the referenced vehicle does not
exist or belongs to a different user, the handler answers the literal
`404 {msg: "Vehicle not found or does not belong to user"}` and the
service store is unchanged (no record is created); the document the
handler constructs carries `cost`/`totalBill` 0 and `partsUsed` empty
when those fields are not supplied, the Service constructor defaults
`type` to "Pending" when no type is supplied, and `customerName` is the
name of the caller's user document as found at creation time (a
snapshot copied into the record). -/
theorem bookService_contract (users : List User) (vehicles : List Vehicle)
    (store : List Service) (callerId freshId vehicleId date : Nat) (ty : String)
    (description : Option String) (cost totalBill : Option Int)
    (partsUsed : Option (List UsedPart)) :
    ((∀ v ∈ vehicles, v.id = vehicleId → v.userId ≠ callerId) →
      bookService users vehicles store callerId freshId vehicleId date ty description
          cost totalBill partsUsed =
        ((404, "Vehicle not found or does not belong to user"), store))
    ∧ (∀ name : String,
      (bookConstruct freshId callerId vehicleId date ty description cost totalBill
          partsUsed name).customerName = name
      ∧ (cost = none → (bookConstruct freshId callerId vehicleId date ty description cost
          totalBill partsUsed name).cost = 0)
      ∧ (totalBill = none → (bookConstruct freshId callerId vehicleId date ty description cost
          totalBill partsUsed name).totalBill = 0)
      ∧ (partsUsed = none → (bookConstruct freshId callerId vehicleId date ty description cost
          totalBill partsUsed name).partsUsed = []))
    ∧ ((mkService freshId callerId vehicleId date none description 0 0 [] "n" "").type
        = "Pending")
    ∧ (∀ v u, vehicles.find? (fun w => w.id == vehicleId && w.userId == callerId) = some v →
      users.find? (fun w => w.id == callerId) = some u →
      bookService users vehicles store callerId freshId vehicleId date ty description
          cost totalBill partsUsed =
        (if serviceValid (bookConstruct freshId callerId vehicleId date ty description
            cost totalBill partsUsed u.name)
         then ((200, "Service booked successfully!"),
               store ++ [bookConstruct freshId callerId vehicleId date ty description
                 cost totalBill partsUsed u.name])
         else ((500, "Server Error"), store))) := by
  refine ⟨?_, ?_, rfl, ?_⟩
  · intro h
    have hfind : vehicles.find? (fun w => w.id == vehicleId && w.userId == callerId) = none := by
      rw [List.find?_eq_none]
      intro v hv
      by_cases hid : v.id = vehicleId
      · simp [h v hv hid]
      · simp [hid]
    simp [bookService, hfind]
  · intro name
    refine ⟨rfl, ?_, ?_, ?_⟩
    · intro h; rw [h]; rfl
    · intro h; rw [h]; rfl
    · intro h; rw [h]; rfl
  · intro v u hv hu
    simp [bookService, hv, hu]

/-- Witness for C6: booking vehicle 1 (owned by user 7) as user 8
answers the 404 body with nothing created; the constructed document for
owner bookings carries the defaults and the owner's name. -/
theorem bookService_contract_witness :
    bookService [uAlice] [vHonda] [] 8 5 1 70 "Oil Change" none none none none =
      ((404, "Vehicle not found or does not belong to user"), [])
    ∧ (bookConstruct 5 8 1 70 "Oil Change" none none none none "Zoe").customerName = "Zoe"
    ∧ (bookConstruct 5 8 1 70 "Oil Change" none none none none "Zoe").cost = 0
    ∧ (bookConstruct 5 8 1 70 "Oil Change" none none none none "Zoe").totalBill = 0
    ∧ (bookConstruct 5 8 1 70 "Oil Change" none none none none "Zoe").partsUsed = [] := by
  have h := bookService_contract [uAlice] [vHonda] [] 8 5 1 70 "Oil Change" none none none none
  refine ⟨h.1 (by decide), (h.2.1 "Zoe").1, (h.2.1 "Zoe").2.1 rfl, (h.2.1 "Zoe").2.2.1 rfl,
    (h.2.1 "Zoe").2.2.2 rfl⟩

def uOwner : User := ⟨7, "Owner", "o@x.com", "h:pw", false⟩

/-- C7: the book handler always sets `customerPhone` to the empty
string on the document it constructs; the Service schema's save-time
validation requires a non-empty `customerPhone`; consequently, whenever
the request reaches the save (vehicle owned by the caller, caller's
user document found), the save is rejected and the handler answers
500 "Server Error" with no record persisted. -/
theorem book_save_always_fails (users : List User) (vehicles : List Vehicle)
    (store : List Service) (callerId freshId vehicleId date : Nat) (ty : String)
    (description : Option String) (cost totalBill : Option Int)
    (partsUsed : Option (List UsedPart)) (name : String) :
    ((bookConstruct freshId callerId vehicleId date ty description cost totalBill
        partsUsed name).customerPhone = "")
    ∧ (∀ s : Service, serviceValid s = true → s.customerPhone ≠ "")
    ∧ (∀ v u, vehicles.find? (fun w => w.id == vehicleId && w.userId == callerId) = some v →
      users.find? (fun w => w.id == callerId) = some u →
      bookService users vehicles store callerId freshId vehicleId date ty description
          cost totalBill partsUsed =
        ((500, "Server Error"), store)) := by
  refine ⟨rfl, ?_, ?_⟩
  · intro s h hphone
    unfold serviceValid at h
    rw [hphone] at h
    simp at h
  · intro v u hv hu
    have hval : serviceValid (bookConstruct freshId callerId vehicleId date ty description
        cost totalBill partsUsed u.name) = false := by
      simp [serviceValid, bookConstruct, mkService]
    simp [bookService, hv, hu, hval]

/-- Witness for C7: user 7 booking their own vehicle 1 gets
500 "Server Error" and the store is unchanged; the valid stored record
indeed has a non-empty phone. -/
theorem book_save_always_fails_witness :
    bookService [uOwner] [vHonda] [svcMine] 7 5 1 70 "Oil Change" none none none none =
      ((500, "Server Error"), [svcMine])
    ∧ svcMine.customerPhone ≠ "" := by
  have h := book_save_always_fails [uOwner] [vHonda] [svcMine] 7 5 1 70 "Oil Change"
    none none none none "x"
  exact ⟨h.2.2 vHonda uOwner (by decide) (by decide), h.2.1 svcMine (by decide)⟩

/-! ## C8: admin partial update -/

/-- C8: for every admin updateDetails request whose body passes the
route validation (date, type, customerName, customerPhone present and
non-empty): on a nonexistent id the response is the literal
`404 {msg: "Service not found"}` and the store is unchanged; on an
existing record exactly the `$set` of `applyServiceFields` is applied
to that record and no other; and field by field, a value present in the
body is written — in particular a description explicitly present as the
empty string overwrites the stored description — while an omitted
description/cost/totalBill/partsUsed keeps its previous value. -/
theorem updateDetails_contract (store : List Service) (sid : Nat) (b : UpdateBody)
    (hval : updateBodyValid b = true) :
    ((∀ s ∈ store, s.id ≠ sid) →
      updateDetails store sid b = ((404, "Service not found"), store))
    ∧ (∀ s, store.find? (fun t => t.id == sid) = some s →
      updateDetails store sid b =
        ((200, "Service details updated successfully!"),
         store.map (fun t => if t.id == sid then applyServiceFields b s else t)))
    ∧ (∀ s : Service,
      (∀ d, b.date = some d → (applyServiceFields b s).date = d)
      ∧ (∀ ty, b.type = some ty → (applyServiceFields b s).type = ty)
      ∧ (∀ ds, b.description = some ds → (applyServiceFields b s).description = ds)
      ∧ (b.description = none → (applyServiceFields b s).description = s.description)
      ∧ (∀ c, b.cost = some c → (applyServiceFields b s).cost = c)
      ∧ (b.cost = none → (applyServiceFields b s).cost = s.cost)
      ∧ (∀ t, b.totalBill = some t → (applyServiceFields b s).totalBill = t)
      ∧ (b.totalBill = none → (applyServiceFields b s).totalBill = s.totalBill)
      ∧ (∀ pu, b.partsUsed = some pu → (applyServiceFields b s).partsUsed = pu)
      ∧ (b.partsUsed = none → (applyServiceFields b s).partsUsed = s.partsUsed)
      ∧ (∀ cn, b.customerName = some cn → (applyServiceFields b s).customerName = cn)
      ∧ (∀ cp, b.customerPhone = some cp → (applyServiceFields b s).customerPhone = cp)) := by
  have h := hval
  unfold updateBodyValid at h
  simp only [Bool.and_eq_true] at h
  obtain ⟨⟨⟨⟨⟨hdate, htype⟩, hcn⟩, hcp⟩, hcost⟩, htb⟩ := h
  refine ⟨?_, ?_, ?_⟩
  · intro hab
    have hfind : store.find? (fun t => t.id == sid) = none := by
      rw [List.find?_eq_none]
      intro t ht
      simp [hab t ht]
    simp [updateDetails, hval, hfind]
  · intro s hfind
    simp [updateDetails, hval, hfind]
  · intro s
    refine ⟨?_, ?_, ?_, ?_, ?_, ?_, ?_, ?_, ?_, ?_, ?_, ?_⟩
    · intro d hd; simp [applyServiceFields, hd]
    · intro ty hty
      rw [hty] at htype
      have : ty ≠ "" := by simpa [strTruthy] using htype
      simp [applyServiceFields, hty, strTruthy, this]
    · intro ds hds; simp [applyServiceFields, hds]
    · intro hds; simp [applyServiceFields, hds]
    · intro c hc; simp [applyServiceFields, hc]
    · intro hc; simp [applyServiceFields, hc]
    · intro t ht; simp [applyServiceFields, ht]
    · intro ht; simp [applyServiceFields, ht]
    · intro pu hpu; simp [applyServiceFields, hpu]
    · intro hpu; simp [applyServiceFields, hpu]
    · intro cn hcn2
      rw [hcn2] at hcn
      have : cn ≠ "" := by simpa [strTruthy] using hcn
      simp [applyServiceFields, hcn2, strTruthy, this]
    · intro cp hcp2
      rw [hcp2] at hcp
      have : cp ≠ "" := by simpa [strTruthy] using hcp
      simp [applyServiceFields, hcp2, strTruthy, this]

def bodyW : UpdateBody := ⟨some 99, some "Completed", some "", none, none, none, some "Al", some "9"⟩

/-- Witness for C8: a valid body with an explicitly empty description
and omitted cost applied to record 1 — the 200 response rewrites only
that record, the empty description is written, the omitted cost is
kept; a nonexistent id answers 404 unchanged. -/
theorem updateDetails_contract_witness :
    updateDetails [svcMine] 1 bodyW =
      ((200, "Service details updated successfully!"),
       [svcMine].map (fun t => if t.id == 1 then applyServiceFields bodyW svcMine else t))
    ∧ updateDetails [svcMine] 99 bodyW = ((404, "Service not found"), [svcMine])
    ∧ (applyServiceFields bodyW svcMine).description = ""
    ∧ (applyServiceFields bodyW svcMine).cost = svcMine.cost := by
  have h := updateDetails_contract [svcMine] 1 bodyW (by decide)
  have h99 := updateDetails_contract [svcMine] 99 bodyW (by decide)
  exact ⟨h.2.1 svcMine (by decide), h99.1 (by decide),
    (h.2.2 svcMine).2.2.1 "" rfl, (h.2.2 svcMine).2.2.2.2.2.1 rfl⟩

/-! ## C9: vehicle creation and plate normalization -/

theorem postVehicle_found (store : List Vehicle) (callerId freshId dateNow year : Nat)
    (make vmodel licensePlate : String) (v : Vehicle)
    (hfind : store.find? (fun w => w.userId == callerId &&
      w.licensePlate == upperStr licensePlate) = some v) :
    postVehicle store callerId freshId dateNow make vmodel year licensePlate =
      ((400, "Vehicle with this license plate already added."), store) := by
  unfold postVehicle
  rw [hfind]

theorem postVehicle_fresh (store : List Vehicle) (callerId freshId dateNow year : Nat)
    (make vmodel licensePlate : String)
    (hfind : store.find? (fun w => w.userId == callerId &&
      w.licensePlate == upperStr licensePlate) = none) :
    postVehicle store callerId freshId dateNow make vmodel year licensePlate =
      (if store.any (fun v => v.licensePlate == upperStr licensePlate)
       then ((500, "Server Error"), store)
       else ((200, "Vehicle added successfully!"),
         store ++ [⟨freshId, callerId, make, vmodel, year, upperStr licensePlate, dateNow⟩])) := by
  unfold postVehicle
  rw [hfind]

/-- C9: for every vehicle-create request, when the caller already owns
a vehicle whose license plate equals the submitted plate up to letter
case (stores reachable by this route keep plates uppercase, the first
hypothesis), the handler answers the literal Conflict response
`400 {msg: "Vehicle with this license plate already added."}` and
creates nothing; whenever the response is 200 the new store is the old
one plus a vehicle whose stored `licensePlate` is the uppercase
normalization of the input; and the all-plates-uppercase invariant is
preserved by every request. -/
theorem postVehicle_contract (store : List Vehicle) (callerId freshId dateNow year : Nat)
    (make vmodel licensePlate : String) :
    ((∀ v ∈ store, upperStr v.licensePlate = v.licensePlate) →
      (∃ w ∈ store, w.userId = callerId ∧ upperStr w.licensePlate = upperStr licensePlate) →
      postVehicle store callerId freshId dateNow make vmodel year licensePlate =
        ((400, "Vehicle with this license plate already added."), store))
    ∧ (∀ resp newStore,
      postVehicle store callerId freshId dateNow make vmodel year licensePlate =
        (resp, newStore) →
      resp.1 = 200 →
      newStore = store ++ [⟨freshId, callerId, make, vmodel, year,
        upperStr licensePlate, dateNow⟩])
    ∧ ((∀ v ∈ store, upperStr v.licensePlate = v.licensePlate) →
      ∀ v ∈ (postVehicle store callerId freshId dateNow make vmodel year licensePlate).2,
        upperStr v.licensePlate = v.licensePlate) := by
  refine ⟨?_, ?_, ?_⟩
  · rintro hinv ⟨w, hw, hwu, hwp⟩
    have hwp2 : w.licensePlate = upperStr licensePlate := by rw [← hinv w hw, hwp]
    have hsome : (store.find? (fun v => v.userId == callerId &&
        v.licensePlate == upperStr licensePlate)).isSome :=
      List.find?_isSome.mpr ⟨w, hw, by simp [hwu, hwp2]⟩
    cases hfind : store.find? (fun v => v.userId == callerId &&
        v.licensePlate == upperStr licensePlate) with
    | none => rw [hfind] at hsome; simp at hsome
    | some v =>
      exact postVehicle_found store callerId freshId dateNow year make vmodel licensePlate
        v hfind
  · intro resp newStore heq h200
    cases hfind : store.find? (fun v => v.userId == callerId &&
        v.licensePlate == upperStr licensePlate) with
    | some v =>
      rw [postVehicle_found store callerId freshId dateNow year
        make vmodel licensePlate v hfind] at heq
      cases heq
      exact absurd h200 (by decide)
    | none =>
      rw [postVehicle_fresh store callerId freshId dateNow year
        make vmodel licensePlate hfind] at heq
      by_cases hdup : store.any (fun v => v.licensePlate == upperStr licensePlate) = true
      · rw [if_pos hdup] at heq
        cases heq
        exact absurd h200 (by decide)
      · rw [if_neg hdup] at heq
        cases heq
        rfl
  · intro hinv v hv
    cases hfind : store.find? (fun w => w.userId == callerId &&
        w.licensePlate == upperStr licensePlate) with
    | some w =>
      rw [postVehicle_found store callerId freshId dateNow year
        make vmodel licensePlate w hfind] at hv
      exact hinv v hv
    | none =>
      rw [postVehicle_fresh store callerId freshId dateNow year
        make vmodel licensePlate hfind] at hv
      by_cases hdup : store.any (fun w => w.licensePlate == upperStr licensePlate) = true
      · rw [if_pos hdup] at hv
        exact hinv v hv
      · rw [if_neg hdup] at hv
        rcases List.mem_append.mp hv with h | h
        · exact hinv v h
        · have hveq : v = ⟨freshId, callerId, make, vmodel, year,
              upperStr licensePlate, dateNow⟩ := by simpa using h
          rw [hveq]
          exact upperStr_idem licensePlate

/-- Witness for C9: user 7 already owns plate "MH12AB"; submitting
"mh12ab" again answers the Conflict body and creates nothing; on a
fresh plate the 200 response stores the uppercased plate; the
uppercase invariant carries over. -/
theorem postVehicle_contract_witness :
    postVehicle [vHonda] 7 3 300 "Tata" "Nano" 2010 "mh12ab" =
      ((400, "Vehicle with this license plate already added."), [vHonda])
    ∧ (postVehicle [vHonda] 7 3 300 "Tata" "Nano" 2010 "ka01cd").2 =
        [vHonda] ++ [⟨3, 7, "Tata", "Nano", 2010, upperStr "ka01cd", 300⟩]
    ∧ upperStr vHonda.licensePlate = vHonda.licensePlate := by
  refine ⟨?_, ?_, ?_⟩
  · exact (postVehicle_contract [vHonda] 7 3 300 2010 "Tata" "Nano" "mh12ab").1
      (by decide) ⟨vHonda, by decide, by decide, by decide⟩
  · exact (postVehicle_contract [vHonda] 7 3 300 2010 "Tata" "Nano" "ka01cd").2.1
      (postVehicle [vHonda] 7 3 300 "Tata" "Nano" 2010 "ka01cd").1
      (postVehicle [vHonda] 7 3 300 "Tata" "Nano" 2010 "ka01cd").2
      rfl (by decide)
  · exact (postVehicle_contract [vHonda] 7 3 300 2010 "Tata" "Nano" "mh12ab").2.2
      (by decide) vHonda (by decide)

/-! ## C10: vehicle listing order -/

theorem vehicleSortKey_date (v : Vehicle) : vehicleSortKey v "date" = none := rfl

theorem getVehicles_eq_filter (store : List Vehicle) (callerId : Nat) :
    getVehicles store callerId = store.filter (fun v => v.userId == callerId) := by
  unfold getVehicles
  exact insertionSort_of_total_rel _
    (fun a b => by rw [vehicleSortKey_date, vehicleSortKey_date]; rfl) _

def vNewer : Vehicle := ⟨2, 7, "Yamaha", "R15", 2021, "KA01CD", 200⟩

/-- C10 at a failing input: with two vehicles of user 7 inserted older
first, the route's `.sort({date: -1})` sorts on a path the Vehicle
schema does not have (its creation stamp is `dateAdded`), every sort
key is missing, and the listing comes back in insertion order — the
first element is the older vehicle, not the newest one as the route's
own comment ("Sort by most recent first") and the spec require. -/
theorem getVehicles_not_newest_first :
    getVehicles [vHonda, vNewer] 7 = [vHonda, vNewer]
    ∧ vHonda.dateAdded < vNewer.dateAdded
    ∧ (getVehicles [vHonda, vNewer] 7).head? ≠ some vNewer := by
  decide

end VSShop
